import Mathlib

/-!
Verification of the structured-extraction pipeline of the Score repository
(`src/utils.py`, `src/app.py`).

Texts are modelled as `List Char`.  The model client (`genai`) and the lenient
JSON parser (`json5.loads`) are external collaborators; they enter the
embedding as oracle parameters.  Machine floats do not occur in the claims'
substance; numeric scores are modelled as rationals.
-/

/-- ASCII whitespace recognised by Python's `str.strip()`
(space, tab, newline, carriage return, vertical tab, form feed). -/
def isPySpace (c : Char) : Bool :=
  c == ' ' || c == '\t' || c == '\n' || c == '\r' ||
    c == Char.ofNat 11 || c == Char.ofNat 12

/-- Removal of leading whitespace, the left half of Python's `str.strip()`. -/
def ltrim (l : List Char) : List Char := l.dropWhile isPySpace

/-- Removal of trailing whitespace, the right half of Python's `str.strip()`. -/
def rtrim (l : List Char) : List Char := (l.reverse.dropWhile isPySpace).reverse

/-- Python's `str.strip()` with no argument: drop leading and trailing
whitespace (`utils.py` line 107, `response.text.strip()`). -/
def pyStrip (l : List Char) : List Char := rtrim (ltrim l)

/-- The backtick character (code 96). -/
def fenceChar : Char := Char.ofNat 96

/-- The six-backtick fence marker removed at `utils.py` line 107
(`.replace("??????", "")` with six backticks as the pattern). -/
def fenceChars : List Char :=
  [fenceChar, fenceChar, fenceChar, fenceChar, fenceChar, fenceChar]

/-- Whether the text contains the six-backtick fence marker as a contiguous
substring (the condition under which line 107's `replace` does anything). -/
def containsFence : List Char → Bool
  | c0 :: c1 :: c2 :: c3 :: c4 :: c5 :: rest =>
    (c0 == fenceChar && c1 == fenceChar && c2 == fenceChar &&
      c3 == fenceChar && c4 == fenceChar && c5 == fenceChar)
    || containsFence (c1 :: c2 :: c3 :: c4 :: c5 :: rest)
  | _ :: cs => containsFence cs
  | [] => false

/-- Python's `str.replace("??????", "")` with a six-backtick pattern
(`utils.py` line 107): scan left to right, deleting each non-overlapping
occurrence of the pattern. -/
def removeFences : List Char → List Char
  | c0 :: c1 :: c2 :: c3 :: c4 :: c5 :: rest =>
    if c0 == fenceChar && c1 == fenceChar && c2 == fenceChar &&
        c3 == fenceChar && c4 == fenceChar && c5 == fenceChar then
      removeFences rest
    else
      c0 :: removeFences (c1 :: c2 :: c3 :: c4 :: c5 :: rest)
  | c :: cs => c :: removeFences cs
  | [] => []

/-- `utils.py` lines 109-112: count `{` and `}`; if opens exceed closes,
append the deficit count of `}`. -/
def balanceBraces (l : List Char) : List Char :=
  if l.count '{' > l.count '}' then
    l ++ List.replicate (l.count '{' - l.count '}') '}'
  else l

/-- `utils.py` lines 113-116: count `[` and `]`; if opens exceed closes,
append the deficit count of `]`. -/
def balanceBrackets (l : List Char) : List Char :=
  if l.count '[' > l.count ']' then
    l ++ List.replicate (l.count '[' - l.count ']') ']'
  else l

/-- The full bracket-balancing step of `utils.py` lines 109-116: braces are
balanced first, then square brackets. -/
def balanceAll (l : List Char) : List Char := balanceBrackets (balanceBraces l)

/-- The whole repair transformation applied to the raw model text before
parsing (`utils.py` lines 107-116): strip whitespace, delete fence markers,
then balance braces and brackets. -/
def repair (l : List Char) : List Char := balanceAll (removeFences (pyStrip l))

/-- The repair behaviour described by the spec's step 2 (not present in the
code, stated for comparison): locate the first `{` and the last `}`; if both
exist, slice the text to that span. -/
def specSliceFirstLastBrace (l : List Char) : List Char :=
  if '{' ∈ l ∧ '}' ∈ l then
    let i := l.findIdx (· == '{')
    let j := l.length - 1 - l.reverse.findIdx (· == '}')
    (l.take (j + 1)).drop i
  else l

/-- A JSON-like value as produced by the lenient parser: Python `None`,
`bool`, numbers (modelled as rationals), strings, lists, and dicts
(modelled as association lists). -/
inductive Value where
  | null
  | bool (b : Bool)
  | num (q : ℚ)
  | str (s : String)
  | arr (elems : List Value)
  | obj (fields : List (String × Value))

/-- A parsed top-level document: the field list of a JSON object. -/
abbrev Doc := List (String × Value)

/-- `utils.py` lines 13-18: the required top-level keys. -/
def REQUIRED_KEYS : List String :=
  ["StartupName", "OverallScore", "ExecutiveSummary", "Sector",
   "SectorAnalysisIndia", "TracxnStyleBenchmark", "ProductMarketFit",
   "GTMExecution", "SupplyChainOps", "BusinessModel", "FoundersEvaluation",
   "ExitOptions", "Comments", "CompetitiveLandscape", "UncertaintyAnalysis"]

/-- `utils.py` lines 24-25: `all(k in data for k in REQUIRED_KEYS)` —
every required key occurs among the document's top-level keys. -/
def validate_structure (data : Doc) : Bool :=
  REQUIRED_KEYS.all (fun k => data.any (fun p => p.1 == k))

/-- `utils.py` lines 132-133: a section value contributes a leaf score when it
is a non-empty list/tuple whose first element is an `int`/`float` (Python
`bool` is a subclass of `int`, so `True`/`False` count as 1/0). -/
def leafScore : Value → Option ℚ
  | .arr (.num q :: _) => some q
  | .arr (.bool b :: _) => some (if b then 1 else 0)
  | _ => none

/-- `utils.py` lines 129-134 (`avg_section`): mean of the numeric leaf scores
of a section's values, `0` when there are none. -/
def avg_section (fields : List (String × Value)) : ℚ :=
  let vals := fields.filterMap (fun p => leafScore p.2)
  if vals.length = 0 then 0 else vals.sum / (vals.length : ℚ)

/-- Python `dict.get(k, {})`: the value bound to `k`, or an empty dict. -/
def pyGet (d : Doc) (k : String) : Value :=
  match d.find? (fun p => p.1 == k) with
  | some p => p.2
  | none => .obj []

/-- Python `section.values()` iteration inside `avg_section`: defined for a
dict and an `AttributeError` (modelled as `none`) otherwise. -/
def valuesOf : Value → Option (List (String × Value))
  | .obj fields => some fields
  | _ => none

/-- Python `round(x, 2)`: rounding to two decimal places, modelled over `ℚ`
as round-half-up of `100 * x` (i.e. `⌊100 * x + 1 / 2⌋`) divided by 100. -/
def roundTo2 (x : ℚ) : ℚ := (((100 * x + 1 / 2).floor : ℤ) : ℚ) / 100

/-- `utils.py` lines 128-142: the derived composite score — the mean of the
five section averages, rounded to two decimals.  `none` models the
`AttributeError` raised when a fetched section is not a dict. -/
def compute_overall_score (scorecard : Doc) : Option ℚ := do
  let pmf ← valuesOf (pyGet scorecard "ProductMarketFit")
  let gtm ← valuesOf (pyGet scorecard "GTMExecution")
  let sc ← valuesOf (pyGet scorecard "SupplyChainOps")
  let bm ← valuesOf (pyGet scorecard "BusinessModel")
  let fe ← valuesOf (pyGet scorecard "FoundersEvaluation")
  some (roundTo2 ((avg_section pmf + avg_section gtm + avg_section sc +
    avg_section bm + avg_section fe) / 5))

/-- One attempt's interaction with the model client (`utils.py` line 106):
either `generate_content`/`response.text` raises, or it yields raw text. -/
inductive AttemptOutcome where
  | modelError
  | response (text : List Char)

/-- Outcome of `analyze_pitch_deck` (`utils.py` lines 103-126): a validated
record together with the repaired raw text, exhaustion of the five attempts
carrying the last repaired raw text (`return (None, raw)`), or an uncaught
exception escaping the `except` handler (the `raw[:1000]` slice of `None`). -/
inductive PipelineResult where
  | success (data : Doc) (raw : List Char)
  | exhausted (raw : Option (List Char))
  | crash

/-- The retry loop of `utils.py` lines 104-124, driven by a per-attempt model
oracle and a parse oracle for `json5.loads` (`none` = parse exception).
Returns the result together with the number of model calls made.
`fuel` counts the remaining iterations of `for attempt in range(5)`;
`rawPrev` is the current value of the `raw` variable (initially `None`).
On a model error the `except` handler prints `raw[:1000]`, which raises an
uncaught `TypeError` when `raw` is still `None`. -/
def attemptLoop (parse : List Char → Option Doc)
    (outcomes : Nat → AttemptOutcome) :
    Nat → Nat → Option (List Char) → PipelineResult × Nat
  | 0, _, rawPrev => (.exhausted rawPrev, 0)
  | fuel + 1, attempt, rawPrev =>
    match outcomes attempt with
    | .modelError =>
      match rawPrev with
      | none => (.crash, 1)
      | some r =>
        let rest := attemptLoop parse outcomes fuel (attempt + 1) (some r)
        (rest.1, rest.2 + 1)
    | .response text =>
      let raw := repair text
      match parse raw with
      | some data =>
        if !data.isEmpty && validate_structure data then
          (.success data raw, 1)
        else
          let rest := attemptLoop parse outcomes fuel (attempt + 1) (some raw)
          (rest.1, rest.2 + 1)
      | none =>
        let rest := attemptLoop parse outcomes fuel (attempt + 1) (some raw)
        (rest.1, rest.2 + 1)

/-- `analyze_pitch_deck` (`utils.py` lines 103-126), abstracted over the model
oracle and the parse oracle: five attempts starting with `raw = None`. -/
def analyze_pitch_deck (parse : List Char → Option Doc)
    (outcomes : Nat → AttemptOutcome) : PipelineResult × Nat :=
  attemptLoop parse outcomes 5 0 none

/-- Result of the per-file processing in `src/app.py` lines 17-28. -/
inductive FileResult where
  | noRecord (calls : Nat)
  | record (d : Doc) (calls : Nat)
  | crashed (calls : Nat)

/-- The per-file loop body of `src/app.py` lines 17-28: skip the analysis when
the extracted text strips to empty (`if not text.strip()`), otherwise run
`analyze_pitch_deck` and keep the record exactly when one is returned. -/
def process_file (parse : List Char → Option Doc)
    (outcomes : Nat → AttemptOutcome) (text : List Char) : FileResult :=
  if (pyStrip text).isEmpty then .noRecord 0
  else
    match analyze_pitch_deck parse outcomes with
    | (.success d _, n) => .record d n
    | (.exhausted _, n) => .noRecord n
    | (.crash, n) => .crashed n

/-- A parsed model response carrying every required key, a model-produced
`"OverallScore"` of 80, and one scored criterion of 50 — used to exhibit that
the pipeline returns the model's overall score untouched. -/
def sampleModelDoc : Doc :=
  [("StartupName", .str "Foo"), ("OverallScore", .num 80),
   ("ExecutiveSummary", .arr []), ("Sector", .str "X"),
   ("SectorAnalysisIndia", .arr []), ("TracxnStyleBenchmark", .obj []),
   ("ProductMarketFit", .obj [("ProofOfConcept", .arr [.num 50, .str "r"])]),
   ("GTMExecution", .obj []), ("SupplyChainOps", .obj []),
   ("BusinessModel", .obj []), ("FoundersEvaluation", .obj []),
   ("ExitOptions", .arr []), ("Comments", .arr []),
   ("CompetitiveLandscape", .arr []), ("UncertaintyAnalysis", .obj [])]

/-! ### Helper lemmas -/

theorem ratFloor_eq_intFloor (q : ℚ) : q.floor = ⌊q⌋ := by
  rw [Rat.floor_def', ← Rat.floor_def]

theorem head_dropWhile_false (p : α → Bool) (l : List α) :
    ∀ x ∈ (l.dropWhile p).head?, p x = false := by
  induction l with
  | nil => simp
  | cons a l ih =>
    intro x hx
    rw [List.dropWhile_cons] at hx
    by_cases h : p a
    · simp only [if_pos h] at hx
      exact ih x hx
    · simp only [if_neg h, List.head?_cons, Option.mem_some_iff] at hx
      subst hx
      simpa using h

theorem dropWhile_eq_self_of_head (p : α → Bool) (l : List α)
    (h : ∀ x ∈ l.head?, p x = false) : l.dropWhile p = l := by
  cases l with
  | nil => rfl
  | cons a l =>
    rw [List.dropWhile_cons, if_neg]
    simp only [List.head?_cons, Option.mem_some_iff] at h
    simp [h a rfl]

theorem rtrim_eq_self (l : List Char)
    (h : ∀ x ∈ l.getLast?, isPySpace x = false) : rtrim l = l := by
  unfold rtrim
  rw [dropWhile_eq_self_of_head isPySpace l.reverse (by simpa using h),
    List.reverse_reverse]

theorem ltrim_eq_self (l : List Char)
    (h : ∀ x ∈ l.head?, isPySpace x = false) : ltrim l = l :=
  dropWhile_eq_self_of_head isPySpace l h

theorem head_pyStrip_false (l : List Char) :
    ∀ x ∈ (pyStrip l).head?, isPySpace x = false := by
  intro x hx
  have hD : (pyStrip l).head?
      = ((ltrim l).reverse.dropWhile isPySpace).getLast? := by
    unfold pyStrip rtrim
    rw [List.head?_reverse]
  rw [hD] at hx
  rcases hd : (ltrim l).reverse.dropWhile isPySpace with _ | ⟨a, d⟩
  · rw [hd] at hx
    simp at hx
  · rw [hd] at hx
    have hsplit := List.takeWhile_append_dropWhile (p := isPySpace)
      (l := (ltrim l).reverse)
    rw [hd] at hsplit
    have h1 : ((ltrim l).reverse).getLast? = (a :: d).getLast? := by
      rw [← hsplit, List.getLast?_append]
      cases hgl : (a :: d).getLast? with
      | none => simp at hgl
      | some y => simp [hgl]
    have h2 : ((ltrim l).reverse).getLast? = (ltrim l).head? :=
      List.getLast?_reverse _
    have hx' : x ∈ (ltrim l).head? := by
      rw [← h2, h1]
      exact hx
    exact head_dropWhile_false isPySpace l x hx'

theorem getLast_pyStrip_false (l : List Char) :
    ∀ x ∈ (pyStrip l).getLast?, isPySpace x = false := by
  intro x hx
  unfold pyStrip rtrim at hx
  rw [List.getLast?_reverse] at hx
  exact head_dropWhile_false isPySpace (ltrim l).reverse x hx

theorem pyStrip_idem (l : List Char) : pyStrip (pyStrip l) = pyStrip l := by
  have h1 : ltrim (pyStrip l) = pyStrip l :=
    ltrim_eq_self _ (head_pyStrip_false l)
  have h2 : rtrim (pyStrip l) = pyStrip l :=
    rtrim_eq_self _ (getLast_pyStrip_false l)
  show rtrim (ltrim (pyStrip l)) = pyStrip l
  rw [h1, h2]

theorem count_dropWhile (p : α → Bool) (l : List α) [DecidableEq α] (a : α)
    (ha : p a = false) : (l.dropWhile p).count a = l.count a := by
  conv_rhs => rw [← List.takeWhile_append_dropWhile (p := p) (l := l)]
  rw [List.count_append]
  have h0 : (l.takeWhile p).count a = 0 := by
    rw [List.count_eq_zero]
    intro hmem
    have := List.mem_takeWhile_imp hmem
    rw [ha] at this
    exact Bool.false_ne_true this
  omega

theorem count_pyStrip (l : List Char) (a : Char)
    (ha : isPySpace a = false) : (pyStrip l).count a = l.count a := by
  unfold pyStrip rtrim ltrim
  rw [List.count_reverse, count_dropWhile _ _ _ ha, List.count_reverse,
    count_dropWhile _ _ _ ha]

theorem pyStrip_decomp (l : List Char) : ∃ s t, l = s ++ pyStrip l ++ t := by
  refine ⟨l.takeWhile isPySpace,
    ((ltrim l).reverse.takeWhile isPySpace).reverse, ?_⟩
  have h1 : l = l.takeWhile isPySpace ++ ltrim l :=
    (List.takeWhile_append_dropWhile (p := isPySpace) (l := l)).symm
  have h2 : ltrim l = pyStrip l ++ ((ltrim l).reverse.takeWhile isPySpace).reverse := by
    have h3 : (ltrim l).reverse
        = (ltrim l).reverse.takeWhile isPySpace ++ (ltrim l).reverse.dropWhile isPySpace :=
      (List.takeWhile_append_dropWhile (p := isPySpace) (l := (ltrim l).reverse)).symm
    have h4 := congrArg List.reverse h3
    rw [List.reverse_reverse, List.reverse_append] at h4
    exact h4
  rw [List.append_assoc, ← h2]
  exact h1

theorem containsFence_cons (c : Char) (cs : List Char)
    (h : containsFence cs = true) : containsFence (c :: cs) = true := by
  match cs with
  | c1 :: c2 :: c3 :: c4 :: c5 :: rest =>
    rw [show containsFence (c :: c1 :: c2 :: c3 :: c4 :: c5 :: rest)
        = ((c == fenceChar && c1 == fenceChar && c2 == fenceChar &&
            c3 == fenceChar && c4 == fenceChar && c5 == fenceChar)
          || containsFence (c1 :: c2 :: c3 :: c4 :: c5 :: rest)) from rfl, h]
    simp
  | [] => simp [containsFence] at h
  | [c1] => exact h
  | [c1, c2] => exact h
  | [c1, c2, c3] => exact h
  | [c1, c2, c3, c4] => exact h

theorem containsFence_true_iff (l : List Char) :
    containsFence l = true ↔ ∃ s t, l = s ++ fenceChars ++ t := by
  constructor
  · intro h
    induction l with
    | nil => simp [containsFence] at h
    | cons c cs ih =>
      match cs, ih with
      | c1 :: c2 :: c3 :: c4 :: c5 :: rest, ih =>
        rw [show containsFence (c :: c1 :: c2 :: c3 :: c4 :: c5 :: rest)
            = ((c == fenceChar && c1 == fenceChar && c2 == fenceChar &&
                c3 == fenceChar && c4 == fenceChar && c5 == fenceChar)
              || containsFence (c1 :: c2 :: c3 :: c4 :: c5 :: rest)) from rfl]
          at h
        rcases Bool.or_eq_true_iff.mp h with hb | ht
        · simp only [Bool.and_eq_true, beq_iff_eq] at hb
          obtain ⟨⟨⟨⟨⟨e0, e1⟩, e2⟩, e3⟩, e4⟩, e5⟩ := hb
          subst e0 e1 e2 e3 e4 e5
          exact ⟨[], rest, by simp [fenceChars]⟩
        · obtain ⟨s, t, hst⟩ := ih ht
          exact ⟨c :: s, t, by simp [hst]⟩
      | [], ih => simp [containsFence] at h
      | [c1], ih =>
        rw [show containsFence [c, c1] = false from rfl] at h
        simp at h
      | [c1, c2], ih =>
        rw [show containsFence [c, c1, c2] = false from rfl] at h
        simp at h
      | [c1, c2, c3], ih =>
        rw [show containsFence [c, c1, c2, c3] = false from rfl] at h
        simp at h
      | [c1, c2, c3, c4], ih =>
        rw [show containsFence [c, c1, c2, c3, c4] = false from rfl] at h
        simp at h
  · rintro ⟨s, t, rfl⟩
    induction s with
    | nil => simp [fenceChars, containsFence]
    | cons a s ih => exact containsFence_cons a _ ih

theorem containsFence_middle_false (s m t : List Char)
    (h : containsFence (s ++ m ++ t) = false) : containsFence m = false := by
  cases hcf : containsFence m with
  | false => rfl
  | true =>
    obtain ⟨u, v, huv⟩ := (containsFence_true_iff m).mp hcf
    have htrue : containsFence (s ++ m ++ t) = true :=
      (containsFence_true_iff _).mpr ⟨s ++ u, v ++ t, by simp [huv]⟩
    rw [htrue] at h
    simp at h

theorem removeFences_eq_self (l : List Char)
    (h : containsFence l = false) : removeFences l = l := by
  induction l with
  | nil => rfl
  | cons c cs ih =>
    match cs, ih with
    | c1 :: c2 :: c3 :: c4 :: c5 :: rest, ih =>
      rw [show containsFence (c :: c1 :: c2 :: c3 :: c4 :: c5 :: rest)
          = ((c == fenceChar && c1 == fenceChar && c2 == fenceChar &&
              c3 == fenceChar && c4 == fenceChar && c5 == fenceChar)
            || containsFence (c1 :: c2 :: c3 :: c4 :: c5 :: rest)) from rfl]
        at h
      rw [Bool.or_eq_false_iff] at h
      rw [show removeFences (c :: c1 :: c2 :: c3 :: c4 :: c5 :: rest)
          = (if c == fenceChar && c1 == fenceChar && c2 == fenceChar &&
              c3 == fenceChar && c4 == fenceChar && c5 == fenceChar then
              removeFences rest
            else c :: removeFences (c1 :: c2 :: c3 :: c4 :: c5 :: rest))
          from rfl]
      rw [if_neg (by simp [h.1]), ih h.2]
    | [], ih => rfl
    | [c1], ih => rfl
    | [c1, c2], ih => rfl
    | [c1, c2, c3], ih => rfl
    | [c1, c2, c3, c4], ih => rfl

theorem balanceBraces_count_other (l : List Char) (a : Char)
    (ha : ('}' == a) = false) : (balanceBraces l).count a = l.count a := by
  unfold balanceBraces
  split
  · rw [List.count_append, List.count_replicate, ha]
    simp
  · rfl

theorem balanceBrackets_count_other (l : List Char) (a : Char)
    (ha : (']' == a) = false) : (balanceBrackets l).count a = l.count a := by
  unfold balanceBrackets
  split
  · rw [List.count_append, List.count_replicate, ha]
    simp
  · rfl

theorem balanceAll_braces_balanced (l : List Char)
    (h : l.count '{' > l.count '}') :
    (balanceAll l).count '{' = (balanceAll l).count '}' := by
  unfold balanceAll
  rw [balanceBrackets_count_other _ '{' (by decide),
    balanceBrackets_count_other _ '}' (by decide)]
  unfold balanceBraces
  rw [if_pos h, List.count_append, List.count_append, List.count_replicate,
    List.count_replicate]
  simp only [show ('}' == '{') = false from rfl, show ('}' == '}') = true from rfl]
  simp
  omega

theorem balanceAll_brackets_balanced (l : List Char)
    (h : l.count '[' > l.count ']') :
    (balanceAll l).count '[' = (balanceAll l).count ']' := by
  unfold balanceAll
  have hb1 : (balanceBraces l).count '[' = l.count '[' :=
    balanceBraces_count_other _ '[' (by decide)
  have hb2 : (balanceBraces l).count ']' = l.count ']' :=
    balanceBraces_count_other _ ']' (by decide)
  unfold balanceBrackets
  rw [hb1, hb2, if_pos h, List.count_append, List.count_append,
    List.count_replicate, List.count_replicate, hb1, hb2]
  simp only [show (']' == '[') = false from rfl, show (']' == ']') = true from rfl]
  simp
  omega

theorem balanceAll_ext (l : List Char) : ∃ ext, balanceAll l = l ++ ext := by
  unfold balanceAll balanceBraces balanceBrackets
  split
  · split
    · exact ⟨_, by rw [List.append_assoc]⟩
    · exact ⟨_, rfl⟩
  · split
    · exact ⟨_, rfl⟩
    · exact ⟨[], by rw [List.append_nil]⟩

theorem balanceAll_eq_self (l : List Char)
    (h1 : l.count '{' = l.count '}') (h2 : l.count '[' = l.count ']') :
    balanceAll l = l := by
  unfold balanceAll balanceBraces
  rw [if_neg (by omega)]
  unfold balanceBrackets
  rw [if_neg (by omega)]

/-! ### Claims -/

/-- C3: for every text in which, for a bracket kind, openers strictly outnumber
closers, the balancing step of `utils.py` lines 109-116 yields equal counts of
that kind, and it only ever appends: the input is an initial segment of the
output. -/
theorem c3_balance_closes_deficit (l : List Char) :
    (l.count '{' > l.count '}' →
      (balanceAll l).count '{' = (balanceAll l).count '}') ∧
    (l.count '[' > l.count ']' →
      (balanceAll l).count '[' = (balanceAll l).count ']') ∧
    (∃ ext, balanceAll l = l ++ ext) :=
  ⟨balanceAll_braces_balanced l, balanceAll_brackets_balanced l,
    balanceAll_ext l⟩

/-- Witness for C3 at the concrete input `{[`. -/
theorem c3_balance_closes_deficit_witness :
    (balanceAll "\x7b[".toList).count '{'
        = (balanceAll "\x7b[".toList).count '}' ∧
    (balanceAll "\x7b[".toList).count '['
        = (balanceAll "\x7b[".toList).count ']' ∧
    ∃ ext, balanceAll "\x7b[".toList = "\x7b[".toList ++ ext :=
  ⟨(c3_balance_closes_deficit "\x7b[".toList).1 (by decide),
   (c3_balance_closes_deficit "\x7b[".toList).2.1 (by decide),
   (c3_balance_closes_deficit "\x7b[".toList).2.2⟩

/-- C4: `validate_structure` succeeds exactly when every required key occurs
among the document's top-level keys; the criterion depends only on the key
list, so any values bound to those keys pass. -/
theorem c4_validate_is_presence_check (d : Doc) :
    validate_structure d = true ↔ ∀ k ∈ REQUIRED_KEYS, k ∈ d.map Prod.fst := by
  unfold validate_structure
  rw [List.all_eq_true]
  constructor
  · intro h k hk
    have hk2 := h k hk
    rw [List.any_eq_true] at hk2
    obtain ⟨p, hp, hpk⟩ := hk2
    rw [beq_iff_eq] at hpk
    exact hpk ▸ List.mem_map_of_mem Prod.fst hp
  · intro h k hk
    rw [List.any_eq_true]
    obtain ⟨p, hp, hpk⟩ := List.mem_map.mp (h k hk)
    exact ⟨p, hp, by rw [beq_iff_eq]; exact hpk⟩

/-- Witness for C4: a document holding every required key with `null` values
(malformed contents) passes validation. -/
theorem c4_validate_is_presence_check_witness :
    validate_structure
      [("StartupName", .null), ("OverallScore", .null),
       ("ExecutiveSummary", .null), ("Sector", .null),
       ("SectorAnalysisIndia", .null), ("TracxnStyleBenchmark", .null),
       ("ProductMarketFit", .null), ("GTMExecution", .null),
       ("SupplyChainOps", .null), ("BusinessModel", .null),
       ("FoundersEvaluation", .null), ("ExitOptions", .null),
       ("Comments", .null), ("CompetitiveLandscape", .null),
       ("UncertaintyAnalysis", .null)] = true :=
  (c4_validate_is_presence_check _).mpr (by decide)

theorem attemptLoop_calls_le (parse : List Char → Option Doc)
    (outcomes : Nat → AttemptOutcome) :
    ∀ fuel attempt rawPrev,
      (attemptLoop parse outcomes fuel attempt rawPrev).2 ≤ fuel := by
  intro fuel
  induction fuel with
  | zero =>
    intro attempt rawPrev
    exact Nat.le_refl 0
  | succ n ih =>
    intro attempt rawPrev
    cases houtcome : outcomes attempt with
    | modelError =>
      cases rawPrev with
      | none =>
        simp only [attemptLoop, houtcome]
        omega
      | some r =>
        simp only [attemptLoop, houtcome]
        have := ih (attempt + 1) (some r)
        omega
    | response text =>
      cases hparse : parse (repair text) with
      | some data =>
        cases hv : (!data.isEmpty && validate_structure data) with
        | true =>
          simp only [attemptLoop, houtcome, hparse, hv, if_true]
          omega
        | false =>
          have := ih (attempt + 1) (some (repair text))
          simp [attemptLoop, houtcome, hparse, hv]
          omega
      | none =>
        simp only [attemptLoop, houtcome, hparse]
        have := ih (attempt + 1) (some (repair text))
        omega

/-- C5: the retry loop of `utils.py` line 104 makes at most five model calls
before success, exhaustion, or a crash, for every model oracle and every
parse oracle. -/
theorem c5_at_most_five_model_calls (parse : List Char → Option Doc)
    (outcomes : Nat → AttemptOutcome) :
    (analyze_pitch_deck parse outcomes).2 ≤ 5 :=
  attemptLoop_calls_le parse outcomes 5 0 none

/-- C6 (code evaluated at the failing input): when the model client raises on
the first attempt, `raw` is still `None`, so the `except` handler's
`raw[:1000]` raises an uncaught `TypeError` after a single call — the
pipeline crashes instead of returning `(None, raw)`. -/
theorem c6_crash_when_first_attempt_fails :
    analyze_pitch_deck (fun _ => none) (fun _ => .modelError)
      = (.crash, 1) := rfl

/-- C2 (code evaluated at the failing input): the in-loop success return of
`utils.py` line 119 hands back the parsed record unchanged — its
`"OverallScore"` stays the model's 80 even though `compute_overall_score`
derives 10 for the same record; the override block at lines 144-146 is
unreachable (stranded at module level, outside any function). -/
theorem c2_returned_score_not_overridden :
    analyze_pitch_deck (fun _ => some sampleModelDoc)
        (fun _ => .response "x".toList)
      = (.success sampleModelDoc "x".toList, 1) ∧
    pyGet sampleModelDoc "OverallScore" = .num 80 ∧
    compute_overall_score sampleModelDoc = some 10 := by
  refine ⟨rfl, rfl, ?_⟩
  simp +decide [compute_overall_score, sampleModelDoc, pyGet, valuesOf,
    avg_section, leafScore, List.find?, roundTo2, ratFloor_eq_intFloor]
  have hf : ⌊(100 : ℚ) * (50 / 5) + 2⁻¹⌋ = 1000 := by
    rw [Int.floor_eq_iff]
    norm_num
  norm_num [hf]

theorem pyStrip_nil_of_all_space (text : List Char)
    (h : ∀ c ∈ text, isPySpace c = true) : pyStrip text = [] := by
  have h1 : ltrim text = [] := by
    unfold ltrim
    rw [List.dropWhile_eq_nil_iff]
    intro x hx
    rw [h x hx]
  unfold pyStrip
  rw [h1]
  rfl

/-- C9: when the extracted text is empty or all-whitespace, the per-file loop
of `src/app.py` lines 17-28 produces no record and never invokes the model:
zero model calls occur. -/
theorem c9_blank_input_skips_model (parse : List Char → Option Doc)
    (outcomes : Nat → AttemptOutcome) (text : List Char)
    (h : ∀ c ∈ text, isPySpace c = true) :
    process_file parse outcomes text = .noRecord 0 := by
  unfold process_file
  rw [pyStrip_nil_of_all_space text h]
  rfl

/-- Witness for C9 at the whitespace-only input `" \n"`. -/
theorem c9_blank_input_skips_model_witness :
    process_file (fun _ => none) (fun _ => .modelError) " \n".toList
      = .noRecord 0 :=
  c9_blank_input_skips_model _ _ _ (by decide)

/-- C10: when both bracket kinds are in deficit, the balancing step appends
every missing `}` before any missing `]`, regardless of nesting order in the
input. -/
theorem c10_braces_close_before_brackets (l : List Char)
    (h1 : l.count '{' > l.count '}') (h2 : l.count '[' > l.count ']') :
    balanceAll l = l ++ List.replicate (l.count '{' - l.count '}') '}'
      ++ List.replicate (l.count '[' - l.count ']') ']' := by
  unfold balanceAll balanceBraces
  rw [if_pos h1]
  have hc1 : (l ++ List.replicate (l.count '{' - l.count '}') '}').count '['
      = l.count '[' := by
    rw [List.count_append, List.count_replicate]
    simp
  have hc2 : (l ++ List.replicate (l.count '{' - l.count '}') '}').count ']'
      = l.count ']' := by
    rw [List.count_append, List.count_replicate]
    simp
  unfold balanceBrackets
  rw [hc1, hc2, if_pos h2]

/-- Witness for C10 at the concrete truncated input `{"a": [1` (an object cut
off inside a nested array): the appended closers arrive as `}` then `]`. -/
theorem c10_braces_close_before_brackets_witness :
    balanceAll "\x7b\"a\": [1".toList
      = "\x7b\"a\": [1".toList
        ++ List.replicate ("\x7b\"a\": [1".toList.count '{'
            - "\x7b\"a\": [1".toList.count '}') '}'
        ++ List.replicate ("\x7b\"a\": [1".toList.count '['
            - "\x7b\"a\": [1".toList.count ']') ']' :=
  c10_braces_close_before_brackets _ (by decide) (by decide)

/-- C1 (counterexample): the repair step never slices to the first-`{` /
last-`}` span.  On a balanced JSON object wrapped in prose, both braces
exist, yet `repair` returns something different from the spec's described
slice (it keeps the prose). -/
theorem c1_slice_counterexample :
    ('{' ∈ "Note: \x7b\"a\": 1\x7d end".toList ∧
      '}' ∈ "Note: \x7b\"a\": 1\x7d end".toList) ∧
    repair "Note: \x7b\"a\": 1\x7d end".toList
      ≠ specSliceFirstLastBrace "Note: \x7b\"a\": 1\x7d end".toList := by
  refine ⟨by decide, by decide⟩

/-- C1 (amended): the repair of `utils.py` lines 107-116 performs no slicing
at all — on input with balanced bracket counts, no fence marker, and no
leading or trailing whitespace, repair is the identity, so surrounding prose
reaches the parser intact. -/
theorem c1_repair_keeps_surrounding_prose (l : List Char)
    (hb : l.count '{' = l.count '}') (hk : l.count '[' = l.count ']')
    (hf : containsFence l = false)
    (hh : ∀ x ∈ l.head?, isPySpace x = false)
    (hl : ∀ x ∈ l.getLast?, isPySpace x = false) :
    repair l = l := by
  unfold repair
  have hs : pyStrip l = l := by
    unfold pyStrip
    rw [ltrim_eq_self l hh]
    exact rtrim_eq_self l hl
  rw [hs, removeFences_eq_self l hf]
  exact balanceAll_eq_self l hb hk

/-- Witness for the amended C1 at the prose-wrapped object. -/
theorem c1_repair_keeps_surrounding_prose_witness :
    repair "Note: \x7b\"a\": 1\x7d end".toList
      = "Note: \x7b\"a\": 1\x7d end".toList :=
  c1_repair_keeps_surrounding_prose _ (by decide) (by decide) (by decide)
    (by decide) (by decide)

/-- C8 (counterexample): repair is not idempotent on all balanced input.  Six
backticks followed by `" {}"` have balanced bracket counts, yet the fence
removal exposes a leading space that only the second run strips. -/
theorem c8_idempotence_counterexample :
    ((fenceChars ++ " \x7b\x7d".toList).count '{'
        = (fenceChars ++ " \x7b\x7d".toList).count '}' ∧
      (fenceChars ++ " \x7b\x7d".toList).count '['
        = (fenceChars ++ " \x7b\x7d".toList).count ']') ∧
    repair (repair (fenceChars ++ " \x7b\x7d".toList))
      ≠ repair (fenceChars ++ " \x7b\x7d".toList) := by
  refine ⟨by decide, by decide⟩

/-- C8 (amended): on input whose brace and bracket counts are balanced and
which contains no six-backtick fence marker, running the repair twice yields
the same text as running it once. -/
theorem c8_repair_idempotent_without_fences (l : List Char)
    (hb : l.count '{' = l.count '}') (hk : l.count '[' = l.count ']')
    (hf : containsFence l = false) :
    repair (repair l) = repair l := by
  have h1 : removeFences (pyStrip l) = pyStrip l := by
    apply removeFences_eq_self
    obtain ⟨s, t, hst⟩ := pyStrip_decomp l
    exact containsFence_middle_false s _ t (hst ▸ hf)
  have h2 : balanceAll (pyStrip l) = pyStrip l := by
    apply balanceAll_eq_self
    · rw [count_pyStrip l '{' (by decide), count_pyStrip l '}' (by decide)]
      exact hb
    · rw [count_pyStrip l '[' (by decide), count_pyStrip l ']' (by decide)]
      exact hk
  have hrl : repair l = pyStrip l := by
    unfold repair
    rw [h1, h2]
  rw [hrl]
  unfold repair
  rw [pyStrip_idem, h1, h2]

/-- Witness for the amended C8 at the balanced, fence-free input `{}`. -/
theorem c8_repair_idempotent_without_fences_witness :
    repair (repair "\x7b\x7d".toList) = repair "\x7b\x7d".toList :=
  c8_repair_idempotent_without_fences _ (by decide) (by decide) (by decide)

theorem avg_section_bounds (fields : List (String × Value))
    (h : ∀ p ∈ fields, (leafScore p.2).elim True (fun q => 0 ≤ q ∧ q ≤ 100)) :
    0 ≤ avg_section fields ∧ avg_section fields ≤ 100 := by
  unfold avg_section
  by_cases hlen : (fields.filterMap (fun p => leafScore p.2)).length = 0
  · rw [if_pos hlen]
    norm_num
  · rw [if_neg hlen]
    have hmem : ∀ q ∈ fields.filterMap (fun p => leafScore p.2),
        0 ≤ q ∧ q ≤ 100 := by
      intro q hq
      rw [List.mem_filterMap] at hq
      obtain ⟨p, hp, hpq⟩ := hq
      have helim := h p hp
      rw [hpq] at helim
      exact helim
    have hpos : (0 : ℚ) < ((fields.filterMap (fun p => leafScore p.2)).length : ℚ) := by
      have := Nat.pos_of_ne_zero hlen
      exact_mod_cast this
    constructor
    · apply div_nonneg _ (le_of_lt hpos)
      exact List.sum_nonneg (fun q hq => (hmem q hq).1)
    · rw [div_le_iff₀ hpos]
      calc (fields.filterMap (fun p => leafScore p.2)).sum
          ≤ (fields.filterMap (fun p => leafScore p.2)).length • (100 : ℚ) :=
            List.sum_le_card_nsmul _ _ (fun q hq => (hmem q hq).2)
        _ = ((fields.filterMap (fun p => leafScore p.2)).length : ℚ) * 100 := by
            rw [nsmul_eq_mul]
        _ = 100 * ((fields.filterMap (fun p => leafScore p.2)).length : ℚ) :=
            mul_comm _ _

theorem roundTo2_bounds (x : ℚ) (h0 : 0 ≤ x) (h1 : x ≤ 100) :
    0 ≤ roundTo2 x ∧ roundTo2 x ≤ 100 := by
  unfold roundTo2
  rw [ratFloor_eq_intFloor]
  constructor
  · apply div_nonneg _ (by norm_num : (0 : ℚ) ≤ 100)
    have hz : (0 : ℤ) ≤ ⌊100 * x + 1 / 2⌋ :=
      Int.floor_nonneg.mpr (by linarith)
    exact_mod_cast hz
  · rw [div_le_iff₀ (by norm_num : (0 : ℚ) < 100)]
    have hmono : ⌊100 * x + 1 / 2⌋ ≤ ⌊(20001 / 2 : ℚ)⌋ :=
      Int.floor_le_floor (by linarith)
    have hval : ⌊(20001 / 2 : ℚ)⌋ = 10000 := by
      rw [Int.floor_eq_iff]
      norm_num
    rw [hval] at hmono
    calc ((⌊100 * x + 1 / 2⌋ : ℤ) : ℚ) ≤ ((10000 : ℤ) : ℚ) := by
          exact_mod_cast hmono
      _ = 100 * 100 := by norm_num

/-- C7: when the five major sections fetched by `compute_overall_score` are
dicts, the derived overall score is exactly the two-decimal rounding of the
unweighted mean of the five section averages (each the mean of its numeric
leaf scores, `0` when a section has none), and it lies in `[0, 100]` whenever
every numeric leaf score does.  Being a pure function of the section
contents, it is deterministic. -/
theorem c7_overall_score_mean_and_bounds (sc : Doc)
    (f1 f2 f3 f4 f5 : List (String × Value))
    (h1 : pyGet sc "ProductMarketFit" = .obj f1)
    (h2 : pyGet sc "GTMExecution" = .obj f2)
    (h3 : pyGet sc "SupplyChainOps" = .obj f3)
    (h4 : pyGet sc "BusinessModel" = .obj f4)
    (h5 : pyGet sc "FoundersEvaluation" = .obj f5)
    (hr : ∀ p ∈ f1 ++ f2 ++ f3 ++ f4 ++ f5,
      (leafScore p.2).elim True (fun q => 0 ≤ q ∧ q ≤ 100)) :
    compute_overall_score sc
      = some (roundTo2 ((avg_section f1 + avg_section f2 + avg_section f3 +
          avg_section f4 + avg_section f5) / 5)) ∧
    0 ≤ roundTo2 ((avg_section f1 + avg_section f2 + avg_section f3 +
        avg_section f4 + avg_section f5) / 5) ∧
    roundTo2 ((avg_section f1 + avg_section f2 + avg_section f3 +
        avg_section f4 + avg_section f5) / 5) ≤ 100 := by
  have hr1 : ∀ p ∈ f1, (leafScore p.2).elim True (fun q => 0 ≤ q ∧ q ≤ 100) :=
    fun p hp => hr p (by simp [hp])
  have hr2 : ∀ p ∈ f2, (leafScore p.2).elim True (fun q => 0 ≤ q ∧ q ≤ 100) :=
    fun p hp => hr p (by simp [hp])
  have hr3 : ∀ p ∈ f3, (leafScore p.2).elim True (fun q => 0 ≤ q ∧ q ≤ 100) :=
    fun p hp => hr p (by simp [hp])
  have hr4 : ∀ p ∈ f4, (leafScore p.2).elim True (fun q => 0 ≤ q ∧ q ≤ 100) :=
    fun p hp => hr p (by simp [hp])
  have hr5 : ∀ p ∈ f5, (leafScore p.2).elim True (fun q => 0 ≤ q ∧ q ≤ 100) :=
    fun p hp => hr p (by simp [hp])
  obtain ⟨b1l, b1u⟩ := avg_section_bounds f1 hr1
  obtain ⟨b2l, b2u⟩ := avg_section_bounds f2 hr2
  obtain ⟨b3l, b3u⟩ := avg_section_bounds f3 hr3
  obtain ⟨b4l, b4u⟩ := avg_section_bounds f4 hr4
  obtain ⟨b5l, b5u⟩ := avg_section_bounds f5 hr5
  have hmean0 : 0 ≤ (avg_section f1 + avg_section f2 + avg_section f3 +
      avg_section f4 + avg_section f5) / 5 := by
    apply div_nonneg _ (by norm_num : (0 : ℚ) ≤ 5)
    linarith
  have hmean1 : (avg_section f1 + avg_section f2 + avg_section f3 +
      avg_section f4 + avg_section f5) / 5 ≤ 100 := by
    rw [div_le_iff₀ (by norm_num : (0 : ℚ) < 5)]
    linarith
  obtain ⟨hb0, hb1⟩ := roundTo2_bounds _ hmean0 hmean1
  refine ⟨?_, hb0, hb1⟩
  unfold compute_overall_score
  rw [h1, h2, h3, h4, h5]
  rfl

/-- Witness for C7 at a scorecard whose five sections are present but have no
numeric leaves: each contributes 0 and the rounded mean is in range. -/
theorem c7_overall_score_mean_and_bounds_witness :
    compute_overall_score
        [("ProductMarketFit", .obj []), ("GTMExecution", .obj []),
         ("SupplyChainOps", .obj []), ("BusinessModel", .obj []),
         ("FoundersEvaluation", .obj [])]
      = some (roundTo2 ((avg_section [] + avg_section [] + avg_section [] +
          avg_section [] + avg_section []) / 5)) ∧
    0 ≤ roundTo2 ((avg_section [] + avg_section [] + avg_section [] +
        avg_section [] + avg_section []) / 5) ∧
    roundTo2 ((avg_section [] + avg_section [] + avg_section [] +
        avg_section [] + avg_section []) / 5) ≤ 100 :=
  c7_overall_score_mean_and_bounds _ [] [] [] [] []
    rfl rfl rfl rfl rfl (by simp)

